import Mathlib

/-!
Verification of the Mirroryourslef watch-history analytics engine and its
frontend stores, as a shallow embedding in Lean 4.

The repository ships the frontend (TypeScript) together with the backend
README, PRD and generated API contracts; the backend engine itself
(session reconstruction, view classification, streak detection,
repeat-view aggregation, snapshot assembly) is declared through
`WatchHistoryAnalyticsResponse` and the docs but its code is not present,
so those components are modelled from the spec (each such definition is
marked `Modelled from the spec:`).  The frontend code that is present
(`firestore.ts` `getWatchTimeHeatmap`, `watchHistoryUtils`
`recordWatchSession`, `watchHistoryStore` `deleteHistory`) is embedded
directly from the source.

Machine numbers are modelled as `Nat` / `Int` / `Rat` (timestamps in
seconds, durations in seconds, shares as exact rationals).
-/

namespace MirrorYourself

/-- Provenance signal of a viewing event (spec §3). -/
inductive Provenance where
  | recommended
  | subscription_feed
  | search
  | direct_link
  | notification
  | unknown
  deriving Repr, DecidableEq

/-- Modelled from the spec: the canonical `ViewEvent` record produced by the
Event Normalizer (spec §3); the backend normalizer code is not in the
repository.  `watched_at` is an absolute timestamp in seconds,
`duration_seconds` is absent for some entries. -/
structure ViewEvent where
  video_id : String
  watched_at : Nat
  duration_seconds : Option Nat
  is_short : Bool
  provenance : Provenance
  deriving Repr, DecidableEq

/-- Modelled from the spec: `effective_end` of an event (spec §4.2):
`watched_at + min(duration_seconds, cap)`, falling back to `watched_at`
itself when `duration_seconds` is unknown. -/
def effectiveEnd (cap : Nat) (e : ViewEvent) : Nat :=
  match e.duration_seconds with
  | some d => e.watched_at + min d cap
  | none => e.watched_at

/-- Modelled from the spec: the inactivity-gap test of the Session
Reconstructor (spec §4.2): a new session starts at event `e` exactly when
`gap = watched_at[e] - effective_end[prev]` exceeds the threshold. -/
def startsNewSession (threshold cap : Nat) (prev e : ViewEvent) : Bool :=
  (threshold : Int) < (e.watched_at : Int) - (effectiveEnd cap prev : Int)

/-- Modelled from the spec: worker of the Session Reconstructor.  `prev` is
the previous event, `cur` the current session accumulated in reverse. -/
def sessionsAux (threshold cap : Nat) (prev : ViewEvent) (cur : List ViewEvent) :
    List ViewEvent → List (List ViewEvent)
  | [] => [cur.reverse]
  | e :: rest =>
    if startsNewSession threshold cap prev e then
      cur.reverse :: sessionsAux threshold cap e [e] rest
    else
      sessionsAux threshold cap e (e :: cur) rest

/-- Modelled from the spec: the Session Reconstructor (spec §4.2).  Input is
the chronologically sorted event list; output is the ordered list of
sessions. -/
def reconstructSessions (threshold cap : Nat) : List ViewEvent → List (List ViewEvent)
  | [] => []
  | e :: rest => sessionsAux threshold cap e [e] rest

/-- Modelled from the spec: number of session boundaries in a sorted event
list, i.e. the number of consecutive pairs whose gap exceeds the
threshold (spec §4.2). -/
def boundaryCount (threshold cap : Nat) (prev : ViewEvent) : List ViewEvent → Nat
  | [] => 0
  | e :: rest =>
    (if startsNewSession threshold cap prev e then 1 else 0) +
      boundaryCount threshold cap e rest

lemma sessionsAux_flatten (threshold cap : Nat) :
    ∀ (l : List ViewEvent) (prev : ViewEvent) (cur : List ViewEvent),
      (sessionsAux threshold cap prev cur l).flatten = cur.reverse ++ l := by
  intro l
  induction l with
  | nil => intro prev cur; simp [sessionsAux]
  | cons e rest ih =>
    intro prev cur
    by_cases h : startsNewSession threshold cap prev e
    · simp [sessionsAux, h, ih]
    · simp [sessionsAux, h, ih]

lemma sessionsAux_ne_nil (threshold cap : Nat) :
    ∀ (l : List ViewEvent) (prev : ViewEvent) (cur : List ViewEvent),
      cur ≠ [] → ∀ s ∈ sessionsAux threshold cap prev cur l, s ≠ [] := by
  intro l
  induction l with
  | nil =>
    intro prev cur hcur s hs
    simp [sessionsAux] at hs
    subst hs
    simpa using hcur
  | cons e rest ih =>
    intro prev cur hcur s hs
    by_cases h : startsNewSession threshold cap prev e
    · simp [sessionsAux, h] at hs
      rcases hs with hs | hs
      · subst hs; simpa using hcur
      · exact ih e [e] (by simp) s hs
    · simp [sessionsAux, h] at hs
      exact ih e (e :: cur) (by simp) s hs

lemma sessionsAux_length (threshold cap : Nat) :
    ∀ (l : List ViewEvent) (prev : ViewEvent) (cur : List ViewEvent),
      (sessionsAux threshold cap prev cur l).length = 1 + boundaryCount threshold cap prev l := by
  intro l
  induction l with
  | nil => intro prev cur; simp [sessionsAux, boundaryCount]
  | cons e rest ih =>
    intro prev cur
    by_cases h : startsNewSession threshold cap prev e
    · simp [sessionsAux, h, boundaryCount, ih]
      omega
    · simp [sessionsAux, h, boundaryCount, ih]

lemma reconstructSessions_flatten (threshold cap : Nat) (events : List ViewEvent) :
    (reconstructSessions threshold cap events).flatten = events := by
  cases events with
  | nil => simp [reconstructSessions]
  | cons e rest => simp [reconstructSessions, sessionsAux_flatten]

lemma reconstructSessions_ne_nil (threshold cap : Nat) (events : List ViewEvent) :
    ∀ s ∈ reconstructSessions threshold cap events, s ≠ [] := by
  cases events with
  | nil => simp [reconstructSessions]
  | cons e rest =>
    exact sessionsAux_ne_nil threshold cap rest e [e] (by simp)

/-- First event of Scenario A: watched at minute 0, duration unknown. -/
def scenA1 : ViewEvent := ⟨"e1", 0, none, false, .unknown⟩

/-- Second event of Scenario A: watched 5 minutes after the first. -/
def scenA2 : ViewEvent := ⟨"e2", 300, none, false, .unknown⟩

/-- Third event of Scenario A: watched 40 minutes after the second. -/
def scenA3 : ViewEvent := ⟨"e3", 2700, none, false, .unknown⟩

/-- C2 (partition invariant): for every input event list, flattening the
sessions produced by the Session Reconstructor gives back exactly the
input list — every event occurs exactly once, in its original
chronological position, and belongs to exactly one session — and every
session is nonempty, so the sessions are the input cut at the boundary
points: chronologically non-overlapping and ordered. -/
theorem sessions_partition (threshold cap : Nat) (events : List ViewEvent) :
    (reconstructSessions threshold cap events).flatten = events ∧
      ∀ s ∈ reconstructSessions threshold cap events, s ≠ [] :=
  ⟨reconstructSessions_flatten threshold cap events,
   reconstructSessions_ne_nil threshold cap events⟩

/-- Witness for C2 at a concrete input. -/
theorem sessions_partition_witness :
    (reconstructSessions 1800 10800 [scenA1, scenA2, scenA3]).flatten =
        [scenA1, scenA2, scenA3] ∧
      [scenA1, scenA2] ≠ ([] : List ViewEvent) :=
  ⟨(sessions_partition 1800 10800 [scenA1, scenA2, scenA3]).1,
   (sessions_partition 1800 10800 [scenA1, scenA2, scenA3]).2 [scenA1, scenA2]
     (by decide)⟩

/-- C3 (session boundary rule and Scenario A): the reconstructor produces
exactly `1 + (number of consecutive gaps exceeding the threshold)`
sessions, so a new session starts exactly at the events whose gap from
the effective end of the previous event exceeds the inactivity threshold;
`effective_end` falls back to `watched_at` when the duration is unknown;
and the 3-event scenario with inter-event gaps of 5 and 40 minutes at
threshold 30 minutes yields exactly the two sessions `[e1, e2]` and
`[e3]`. -/
theorem session_boundary_rule :
    (∀ threshold cap (e : ViewEvent) rest,
        (reconstructSessions threshold cap (e :: rest)).length =
          1 + boundaryCount threshold cap e rest) ∧
    (∀ cap (e : ViewEvent), e.duration_seconds = none →
        effectiveEnd cap e = e.watched_at) ∧
    reconstructSessions 1800 10800 [scenA1, scenA2, scenA3] =
      [[scenA1, scenA2], [scenA3]] := by
  refine ⟨?_, ?_, ?_⟩
  · intro threshold cap e rest
    simpa [reconstructSessions] using
      sessionsAux_length threshold cap rest e [e]
  · intro cap e h
    simp [effectiveEnd, h]
  · decide

/-- Witness for C3 at a concrete input. -/
theorem session_boundary_rule_witness :
    effectiveEnd 10800 scenA1 = scenA1.watched_at ∧
      (reconstructSessions 1800 10800 [scenA1, scenA2, scenA3]).length =
        1 + boundaryCount 1800 10800 scenA1 [scenA2, scenA3] :=
  ⟨session_boundary_rule.2.1 10800 scenA1 rfl,
   session_boundary_rule.1 1800 10800 scenA1 [scenA2, scenA3]⟩

/-- Modelled from the spec: the explicit provenance signal of the View
Classifier (spec §4.3): recommended, subscription_feed and notification
are algorithmic; search and direct_link are intentional; unknown carries
no explicit signal. -/
def provSignal : Provenance → Option Bool
  | .recommended => some true
  | .subscription_feed => some true
  | .notification => some true
  | .search => some false
  | .direct_link => some false
  | .unknown => none

/-- Modelled from the spec: majority classification of a session over the
events carrying an explicit signal; `false` when no explicit signal is
available (the conservative default of spec §4.3 for `unknown`). -/
def sessionMajority (s : List ViewEvent) : Bool :=
  (s.filter (fun e => provSignal e.provenance = some false)).length <
    (s.filter (fun e => provSignal e.provenance = some true)).length

/-- Modelled from the spec: classification of one event, `unknown`
inheriting the majority of the enclosing session (spec §4.3). -/
def classifyEvent (maj : Bool) (e : ViewEvent) : Bool :=
  (provSignal e.provenance).getD maj

/-- Modelled from the spec: the per-event `algorithmic` flags of the full
history, each session classified with its own majority (spec §4.3). -/
def classifiedFlags (sessions : List (List ViewEvent)) : List Bool :=
  (sessions.map (fun s => s.map (classifyEvent (sessionMajority s)))).flatten

/-- Modelled from the spec: `algorithmic_view_share` — algorithmic event
count divided by total event count, `0` guarded when there is no data
(spec §4.3). -/
def algorithmicViewShare (flags : List Bool) : ℚ :=
  if flags.length = 0 then 0 else (flags.count true : ℚ) / (flags.length : ℚ)

/-- Modelled from the spec: `intentional_view_share` — intentional event
count divided by total event count, `0` guarded when there is no data
(spec §4.3). -/
def intentionalViewShare (flags : List Bool) : ℚ :=
  if flags.length = 0 then 0 else (flags.count false : ℚ) / (flags.length : ℚ)

lemma count_true_add_count_false (l : List Bool) :
    l.count true + l.count false = l.length := by
  induction l with
  | nil => rfl
  | cons b t ih =>
    cases b <;> simp [List.count_cons] <;> omega

lemma classifiedFlags_length (sessions : List (List ViewEvent)) :
    (classifiedFlags sessions).length = sessions.flatten.length := by
  simp [classifiedFlags, List.length_flatten, List.map_map, Function.comp_def]

/-- Modelled from the spec: a maximal run of consecutive short-form views
inside one session (spec §3). -/
structure ShortsStreak where
  video_count : Nat
  duration_minutes : ℚ
  deriving Repr, DecidableEq

/-- Modelled from the spec: streak duration in minutes — sum over the events of
`duration_seconds` with a default per-short estimate of 30 seconds when
unknown, divided by 60 (spec §4.4). -/
def streakMinutes (run : List ViewEvent) : ℚ :=
  ((run.map (fun e => ((e.duration_seconds.getD 30 : ℚ)))).sum) / 60

/-- Modelled from the spec: the `ShortsStreak` recorded for a closed run. -/
def mkStreak (run : List ViewEvent) : ShortsStreak :=
  ⟨run.length, streakMinutes run⟩

/-- Modelled from the spec: closing the current run of consecutive shorts —
the streak is kept only when it has at least 2 videos (spec §4.4). -/
def closeRun (run : List ViewEvent) : List ShortsStreak :=
  if 2 ≤ run.length then [mkStreak run] else []

/-- Modelled from the spec: linear scan of the Streak Detector (spec §4.4):
extend the current run while `is_short`, close it on the first
non-short event or at end of session. -/
def detectStreaksAux (run : List ViewEvent) : List ViewEvent → List ShortsStreak
  | [] => closeRun run
  | e :: rest =>
    if e.is_short then detectStreaksAux (run ++ [e]) rest
    else closeRun run ++ detectStreaksAux [] rest

/-- Modelled from the spec: the Streak Detector over the ordered
events of one session (spec §4.4). -/
def detectStreaks (session : List ViewEvent) : List ShortsStreak :=
  detectStreaksAux [] session

/-- Modelled from the spec: all qualifying streaks of all sessions. -/
def allStreaks (sessions : List (List ViewEvent)) : List ShortsStreak :=
  (sessions.map detectStreaks).flatten

/-- Modelled from the spec: `average_shorts_streak_minutes` — the mean
streak duration across all qualifying streaks, `0` guarded when there is
none (spec §4.4). -/
def averageShortsStreakMinutes (sessions : List (List ViewEvent)) : ℚ :=
  if (allStreaks sessions).length = 0 then 0
  else ((allStreaks sessions).map (fun st => st.duration_minutes)).sum /
    ((allStreaks sessions).length : ℚ)

lemma mem_closeRun {run : List ViewEvent} {st : ShortsStreak}
    (h : st ∈ closeRun run) : 2 ≤ st.video_count := by
  unfold closeRun at h
  split at h
  · next hlen =>
    simp at h
    subst h
    simpa [mkStreak] using hlen
  · simp at h

lemma mem_detectStreaksAux (l : List ViewEvent) :
    ∀ (run : List ViewEvent) (st : ShortsStreak),
      st ∈ detectStreaksAux run l → 2 ≤ st.video_count := by
  induction l with
  | nil =>
    intro run st h
    exact mem_closeRun h
  | cons e rest ih =>
    intro run st h
    by_cases hs : e.is_short
    · simp [detectStreaksAux, hs] at h
      exact ih (run ++ [e]) st h
    · simp [detectStreaksAux, hs] at h
      rcases h with h | h
      · exact mem_closeRun h
      · exact ih [] st h

/-- Modelled from the spec: the per-video aggregate of the Repeat-View
Aggregator (spec §3, §4.5). -/
structure RepeatView where
  video_id : String
  watch_count : Nat
  last_watched_at : Nat
  deriving Repr, DecidableEq

/-- Modelled from the spec: the distinct video ids of the history, in first
occurrence order (the grouping keys of spec §4.5). -/
def videoIds (events : List ViewEvent) : List String :=
  (events.map (fun e => e.video_id)).dedup

/-- Modelled from the spec: the group of events sharing one `video_id`
(spec §4.5). -/
def groupOf (events : List ViewEvent) (vid : String) : List ViewEvent :=
  events.filter (fun e => e.video_id = vid)

/-- Modelled from the spec: `max(watched_at)` over a group (spec §4.5). -/
def lastWatched (g : List ViewEvent) : Nat :=
  (g.map (fun e => e.watched_at)).foldl max 0

/-- Modelled from the spec: the `RepeatView` emitted for one video id —
only groups of size at least 2 qualify (spec §4.5). -/
def repeatEntry (events : List ViewEvent) (vid : String) : Option RepeatView :=
  if 2 ≤ (groupOf events vid).length then
    some ⟨vid, (groupOf events vid).length, lastWatched (groupOf events vid)⟩
  else none

/-- Modelled from the spec: output order of the Repeat-View Aggregator —
descending `watch_count`, ties broken by most recent `last_watched_at`
(spec §4.5). -/
def RepeatOrder (a b : RepeatView) : Prop :=
  b.watch_count < a.watch_count ∨
    (a.watch_count = b.watch_count ∧ b.last_watched_at ≤ a.last_watched_at)

instance : DecidableRel RepeatOrder := fun a b => by
  unfold RepeatOrder; infer_instance

instance : IsTotal RepeatView RepeatOrder :=
  ⟨fun a b => by unfold RepeatOrder; omega⟩

instance : IsTrans RepeatView RepeatOrder :=
  ⟨fun a b c hab hbc => by
    unfold RepeatOrder at hab hbc ⊢; omega⟩

/-- Modelled from the spec: the Repeat-View Aggregator (spec §4.5): one
entry per qualifying video id, sorted by `RepeatOrder`. -/
def repeatViews (events : List ViewEvent) : List RepeatView :=
  ((videoIds events).filterMap (repeatEntry events)).insertionSort RepeatOrder

/-- Modelled from the spec: the scalar and aggregate fields of the
`AnalyticsSnapshot` covered by this development (spec §3, §4.7 and the
`WatchHistoryAnalyticsResponse` contract). -/
structure AnalyticsSnapshot where
  total_events : Nat
  algorithmic_view_share : ℚ
  intentional_view_share : ℚ
  average_shorts_streak_minutes : ℚ
  repeat_views : List RepeatView
  deriving Repr, DecidableEq

/-- Modelled from the spec: the Snapshot Assembler (spec §4.7): arithmetic
composition of the stage outputs. -/
def assembleSnapshot (threshold cap : Nat) (events : List ViewEvent) :
    AnalyticsSnapshot :=
  { total_events := events.length
  , algorithmic_view_share :=
      algorithmicViewShare (classifiedFlags (reconstructSessions threshold cap events))
  , intentional_view_share :=
      intentionalViewShare (classifiedFlags (reconstructSessions threshold cap events))
  , average_shorts_streak_minutes :=
      averageShortsStreakMinutes (reconstructSessions threshold cap events)
  , repeat_views := repeatViews events }

/-- Modelled from the spec: the error taxonomy entry relevant to the engine
run (spec §7): zero valid events after normalization. -/
inductive RunError where
  | EmptyHistory
  deriving Repr, DecidableEq

/-- Modelled from the spec: the two per-user states of the engine
(spec §4.7). -/
inductive EngineState where
  | no_snapshot
  | snapshot_ready (snap : AnalyticsSnapshot)
  deriving Repr, DecidableEq

/-- Modelled from the spec: one full engine run (spec §4.1–§4.7, §7): an
empty normalized history is the `EmptyHistory` failure, a nonempty one
produces the assembled snapshot. -/
def runPipeline (threshold cap : Nat) (events : List ViewEvent) :
    Except RunError AnalyticsSnapshot :=
  if events.isEmpty then .error .EmptyHistory
  else .ok (assembleSnapshot threshold cap events)

/-- Modelled from the spec: the per-user state transition (spec §4.7): a
successful run replaces the stored snapshot wholesale, a failed run
leaves the stored state unchanged. -/
def engineStep (threshold cap : Nat) (s : EngineState) (events : List ViewEvent) :
    EngineState :=
  match runPipeline threshold cap events with
  | .ok snap => .snapshot_ready snap
  | .error _ => s

/-- C1 (share conservation): in every assembled snapshot,
`algorithmic_view_share + intentional_view_share = 1` exactly (rational
arithmetic) whenever `total_events > 0`, and both shares are the guarded
value `0` when `total_events = 0`. -/
theorem share_conservation (threshold cap : Nat) (events : List ViewEvent) :
    (0 < (assembleSnapshot threshold cap events).total_events →
      (assembleSnapshot threshold cap events).algorithmic_view_share +
        (assembleSnapshot threshold cap events).intentional_view_share = 1) ∧
    ((assembleSnapshot threshold cap events).total_events = 0 →
      (assembleSnapshot threshold cap events).algorithmic_view_share = 0 ∧
        (assembleSnapshot threshold cap events).intentional_view_share = 0) := by
  have hlen : (classifiedFlags (reconstructSessions threshold cap events)).length
      = events.length := by
    rw [classifiedFlags_length, reconstructSessions_flatten]
  have hcnt := count_true_add_count_false
    (classifiedFlags (reconstructSessions threshold cap events))
  constructor
  · intro hpos
    simp only [assembleSnapshot] at hpos ⊢
    have hne : (classifiedFlags (reconstructSessions threshold cap events)).length ≠ 0 := by
      omega
    simp only [algorithmicViewShare, intentionalViewShare, if_neg hne]
    rw [div_add_div_same]
    have hq : ((classifiedFlags (reconstructSessions threshold cap events)).count true : ℚ) +
        ((classifiedFlags (reconstructSessions threshold cap events)).count false : ℚ) =
        ((classifiedFlags (reconstructSessions threshold cap events)).length : ℚ) := by
      exact_mod_cast hcnt
    rw [hq]
    exact div_self (Nat.cast_ne_zero.mpr hne)
  · intro hzero
    simp only [assembleSnapshot] at hzero ⊢
    have h0 : (classifiedFlags (reconstructSessions threshold cap events)).length = 0 := by
      omega
    simp [algorithmicViewShare, intentionalViewShare, h0]

/-- Witness for C1 at a concrete input. -/
theorem share_conservation_witness :
    (assembleSnapshot 1800 10800 [scenA1]).algorithmic_view_share +
        (assembleSnapshot 1800 10800 [scenA1]).intentional_view_share = 1 ∧
      (assembleSnapshot 1800 10800 []).algorithmic_view_share = 0 :=
  ⟨(share_conservation 1800 10800 [scenA1]).1 (by decide),
   ((share_conservation 1800 10800 []).2 (by decide)).1⟩

/-- Scenario B: five consecutive 30-second shorts in one session. -/
def scenB : List ViewEvent :=
  [⟨"s1", 0, some 30, true, .unknown⟩, ⟨"s2", 30, some 30, true, .unknown⟩,
   ⟨"s3", 60, some 30, true, .unknown⟩, ⟨"s4", 90, some 30, true, .unknown⟩,
   ⟨"s5", 120, some 30, true, .unknown⟩]

/-- C6 (streak minimality): every emitted `ShortsStreak` has at least 2
videos; a session without a qualifying streak contributes nothing to
`average_shorts_streak_minutes` (appending it leaves the average
unchanged, it does not contribute a zero); and the five
30-second shorts of Scenario B form the single streak `video_count = 5`,
`duration_minutes = 5/2`. -/
theorem streak_minimality :
    (∀ (session : List ViewEvent) (st : ShortsStreak),
        st ∈ detectStreaks session → 2 ≤ st.video_count) ∧
    (∀ (sessions : List (List ViewEvent)) (s : List ViewEvent),
        detectStreaks s = [] →
          averageShortsStreakMinutes (sessions ++ [s]) =
            averageShortsStreakMinutes sessions) ∧
    detectStreaks scenB = [⟨5, 5/2⟩] := by
  refine ⟨?_, ?_, ?_⟩
  · intro session st h
    exact mem_detectStreaksAux session [] st h
  · intro sessions s hs
    have hall : allStreaks (sessions ++ [s]) = allStreaks sessions := by
      simp [allStreaks, hs]
    simp [averageShortsStreakMinutes, hall]
  · show detectStreaksAux [] scenB = [⟨5, 5/2⟩]
    norm_num [scenB, detectStreaksAux, closeRun, mkStreak, streakMinutes]

/-- Witness for C6 at a concrete input. -/
theorem streak_minimality_witness :
    2 ≤ (⟨5, 5/2⟩ : ShortsStreak).video_count ∧
      averageShortsStreakMinutes ([scenB] ++ [[scenA1]]) =
        averageShortsStreakMinutes [scenB] :=
  ⟨streak_minimality.1 scenB ⟨5, 5/2⟩ (by rw [streak_minimality.2.2]; exact List.mem_singleton.mpr rfl),
   streak_minimality.2.1 [scenB] [scenA1] (by decide)⟩

/-- C4 (engine state machine): the per-user state of the engine is exactly one
of `no_snapshot` and `snapshot_ready`; any failed run leaves the stored
state unchanged (atomic replace-or-nothing); and in particular an empty
history fails with `EmptyHistory` and leaves the prior state untouched. -/
theorem engine_state_machine :
    (∀ s : EngineState, s = EngineState.no_snapshot ∨
        ∃ snap, s = EngineState.snapshot_ready snap) ∧
    (∀ (threshold cap : Nat) (s : EngineState) (events : List ViewEvent)
        (err : RunError),
        runPipeline threshold cap events = .error err →
          engineStep threshold cap s events = s) ∧
    (∀ (threshold cap : Nat) (s : EngineState),
        runPipeline threshold cap [] = .error RunError.EmptyHistory ∧
          engineStep threshold cap s [] = s) := by
  refine ⟨?_, ?_, ?_⟩
  · intro s
    cases s with
    | no_snapshot => exact Or.inl rfl
    | snapshot_ready snap => exact Or.inr ⟨snap, rfl⟩
  · intro threshold cap s events err h
    simp [engineStep, h]
  · intro threshold cap s
    exact ⟨rfl, by simp [engineStep, runPipeline]⟩

/-- Witness for C4 at a concrete input. -/
theorem engine_state_machine_witness :
    engineStep 1800 10800 EngineState.no_snapshot [] = EngineState.no_snapshot :=
  engine_state_machine.2.1 1800 10800 EngineState.no_snapshot [] RunError.EmptyHistory rfl

lemma repeatEntry_video_id {events : List ViewEvent} {vid : String} {r : RepeatView}
    (h : repeatEntry events vid = some r) : r.video_id = vid := by
  unfold repeatEntry at h
  split at h
  · cases h
    rfl
  · cases h

lemma map_filterMap_repeatEntry_sublist (events : List ViewEvent) :
    ∀ vids : List String,
      ((vids.filterMap (repeatEntry events)).map (fun r => r.video_id)).Sublist vids := by
  intro vids
  induction vids with
  | nil => simp
  | cons vid rest ih =>
    cases h : repeatEntry events vid with
    | none =>
      simpa [List.filterMap_cons, h] using ih.cons vid
    | some r =>
      simpa [List.filterMap_cons, h, repeatEntry_video_id h] using ih.cons₂ vid

lemma mem_repeatViews {events : List ViewEvent} {r : RepeatView} :
    r ∈ repeatViews events ↔
      (r.video_id ∈ videoIds events ∧ 2 ≤ (groupOf events r.video_id).length ∧
        r.watch_count = (groupOf events r.video_id).length ∧
        r.last_watched_at = lastWatched (groupOf events r.video_id)) := by
  unfold repeatViews
  rw [List.mem_insertionSort, List.mem_filterMap]
  constructor
  · rintro ⟨vid, hvid, hent⟩
    unfold repeatEntry at hent
    split at hent
    · next hq =>
      injection hent with hr
      subst hr
      exact ⟨hvid, hq, rfl, rfl⟩
    · cases hent
  · rintro ⟨hv, hq, hwc, hlw⟩
    refine ⟨r.video_id, hv, ?_⟩
    unfold repeatEntry
    rw [if_pos hq]
    cases r
    simp only at hwc hlw
    simp [hwc, hlw]

/-- Scenario C: the same `video_id` watched on two dates. -/
def scenC : List ViewEvent :=
  [⟨"v", 20250101, some 300, false, .search⟩,
   ⟨"v", 20250201, some 300, false, .search⟩]

/-- C7 (repeat-view aggregation): the aggregator output contains exactly
the `RepeatView`s of the video ids whose group has size at least 2, each
carrying the group size as `watch_count` and the maximal
`watched_at` of the group as `last_watched_at`; no video id appears twice; the output
is sorted descending by `watch_count` with ties broken by most recent
`last_watched_at`; and the twice-watched video of Scenario C yields the
single entry with `watch_count = 2` and the later date. -/
theorem repeat_view_aggregation :
    (∀ (events : List ViewEvent) (r : RepeatView),
        r ∈ repeatViews events ↔
          (r.video_id ∈ videoIds events ∧
            2 ≤ (groupOf events r.video_id).length ∧
            r.watch_count = (groupOf events r.video_id).length ∧
            r.last_watched_at = lastWatched (groupOf events r.video_id))) ∧
    (∀ events : List ViewEvent,
        ((repeatViews events).map (fun r => r.video_id)).Nodup) ∧
    (∀ events : List ViewEvent, (repeatViews events).Sorted RepeatOrder) ∧
    repeatViews scenC = [⟨"v", 2, 20250201⟩] := by
  refine ⟨?_, ?_, ?_, ?_⟩
  · intro events r
    exact mem_repeatViews
  · intro events
    have hperm : List.Perm
        (((videoIds events).filterMap (repeatEntry events)).map
          (fun r => r.video_id))
        ((repeatViews events).map (fun r => r.video_id)) :=
      ((List.perm_insertionSort RepeatOrder
        ((videoIds events).filterMap (repeatEntry events))).symm.map _)
    exact hperm.nodup
      ((map_filterMap_repeatEntry_sublist events (videoIds events)).nodup
        (List.nodup_dedup _))
  · intro events
    exact List.sorted_insertionSort RepeatOrder _
  · decide

/-- Witness for C7 at a concrete input. -/
theorem repeat_view_aggregation_witness :
    (⟨"v", 2, 20250201⟩ : RepeatView) ∈ repeatViews scenC ∧
      ((repeatViews scenC).map (fun r => r.video_id)).Nodup :=
  ⟨(repeat_view_aggregation.1 scenC ⟨"v", 2, 20250201⟩).mpr (by decide),
   repeat_view_aggregation.2.1 scenC⟩

/-- A stored watch session as read by `getWatchTimeHeatmap`
(`view-time (4)/frontend/src/utils/firestore.ts`): `startTime.toDate()`
yields a weekday in 0..6 via `getDay()` and an hour in 0..23 via
`getHours()`; `duration` is in seconds. -/
structure HeatSession where
  day : Fin 7
  hour : Fin 24
  duration : ℚ

/-- One output cell of `getWatchTimeHeatmap`: `{ day, hour, value }` with
`value` in minutes. -/
structure HeatCell where
  day : Nat
  hour : Nat
  value : ℚ
  deriving Repr, DecidableEq

/-- The zero-filled `heatmap` dictionary of `getWatchTimeHeatmap`:
every key `day_hour` starts at `0`. -/
def emptyHeatmap : Nat → Nat → ℚ := fun _ _ => 0

/-- One `heatmap[key] += session.duration` step of `getWatchTimeHeatmap`. -/
def addHeatSession (m : Nat → Nat → ℚ) (s : HeatSession) : Nat → Nat → ℚ :=
  fun d h => if d = s.day.val ∧ h = s.hour.val then m d h + s.duration else m d h

/-- The aggregation loop of `getWatchTimeHeatmap`: fold all sessions into
the zero-filled dictionary. -/
def heatTotals (sessions : List HeatSession) : Nat → Nat → ℚ :=
  sessions.foldl addHeatSession emptyHeatmap

/-- Embedding of `getWatchTimeHeatmap`
(`view-time (4)/frontend/src/utils/firestore.ts` lines 259-304): after
aggregating, the result array is built by the nested
`for day in 0..6, for hour in 0..23` loops, each cell value being the
aggregated seconds divided by 60. -/
def getWatchTimeHeatmap (sessions : List HeatSession) : List HeatCell :=
  ((List.range 7).map (fun day =>
    (List.range 24).map (fun hour =>
      ⟨day, hour, heatTotals sessions day hour / 60⟩))).flatten

lemma heatTotals_eq_of_no_match (d h : Nat) :
    ∀ (sessions : List HeatSession) (m : Nat → Nat → ℚ),
      (∀ s ∈ sessions, ¬(s.day.val = d ∧ s.hour.val = h)) →
        sessions.foldl addHeatSession m d h = m d h := by
  intro sessions
  induction sessions with
  | nil => intro m _; rfl
  | cons s rest ih =>
    intro m hn
    have hs : ¬(s.day.val = d ∧ s.hour.val = h) := hn s (by simp)
    have hrest : ∀ t ∈ rest, ¬(t.day.val = d ∧ t.hour.val = h) := by
      intro t ht
      exact hn t (by simp [ht])
    rw [List.foldl_cons, ih (addHeatSession m s) hrest]
    unfold addHeatSession
    rw [if_neg]
    intro hc
    exact hs ⟨hc.1.symm, hc.2.symm⟩

/-- C5 (heatmap density): for every input, the heatmap is a dense 7×24
grid — exactly 168 cells, each pair `(weekday, hour)` with
`weekday < 7` and `hour < 24` present, and a cell reached by no session
holds the zero-filled value `0`. -/
theorem heatmap_density (sessions : List HeatSession) :
    (getWatchTimeHeatmap sessions).length = 168 ∧
    (∀ d h : Nat, d < 7 → h < 24 →
        ∃ cell ∈ getWatchTimeHeatmap sessions, cell.day = d ∧ cell.hour = h) ∧
    (∀ cell ∈ getWatchTimeHeatmap sessions,
        (∀ s ∈ sessions, ¬(s.day.val = cell.day ∧ s.hour.val = cell.hour)) →
          cell.value = 0) := by
  refine ⟨?_, ?_, ?_⟩
  · simp [getWatchTimeHeatmap, List.length_flatten, List.map_map, Function.comp_def]
  · intro d h hd hh
    refine ⟨⟨d, h, heatTotals sessions d h / 60⟩, ?_, rfl, rfl⟩
    rw [getWatchTimeHeatmap, List.mem_flatten]
    refine ⟨(List.range 24).map (fun hour =>
      ⟨d, hour, heatTotals sessions d hour / 60⟩), ?_, ?_⟩
    · exact List.mem_map_of_mem _ (List.mem_range.mpr hd)
    · exact List.mem_map_of_mem _ (List.mem_range.mpr hh)
  · intro cell hcell hno
    rw [getWatchTimeHeatmap, List.mem_flatten] at hcell
    obtain ⟨row, hrow, hcellrow⟩ := hcell
    obtain ⟨d, _, hd⟩ := List.mem_map.mp hrow
    subst hd
    obtain ⟨h, _, hc⟩ := List.mem_map.mp hcellrow
    subst hc
    have : heatTotals sessions d h = 0 := by
      rw [heatTotals, heatTotals_eq_of_no_match d h sessions emptyHeatmap]
      · rfl
      · exact hno
    simp [this]

/-- Witness for C5 at a concrete input. -/
theorem heatmap_density_witness :
    (getWatchTimeHeatmap []).length = 168 ∧
      ∃ cell ∈ getWatchTimeHeatmap [], cell.day = 3 ∧ cell.hour = 15 :=
  ⟨(heatmap_density []).1,
   (heatmap_density []).2.1 3 15 (by decide) (by decide)⟩

/-- Embedding of `recordWatchSession` line 32 of `watchHistoryUtils`
(src/unnamed/part_013): `const isShort = videoData.isShort ||
videoData.duration <= 60`.  The optional flag is truthy, or the duration
compares `<= 60`; an absent duration compares false under JS `NaN`
semantics, and an absent flag is falsy. -/
def jsIsShort (flag : Option Bool) (duration : Option ℚ) : Bool :=
  flag.getD false ||
    (match duration with
     | some d => decide (d ≤ 60)
     | none => false)

/-- Restatement of the `is_short` rule of claim C8 in the words of the spec (spec §3,
§4.1), for comparison with `jsIsShort`: a known duration decides alone
(`duration_seconds <= 60`), only a missing duration defers to the source
flag, and missing duration with no flag defaults to `false`. -/
def specIsShort (flag : Option Bool) (duration : Option ℚ) : Bool :=
  match duration with
  | some d => decide (d ≤ 60)
  | none => flag.getD false

/-- Counterexample to C8 as stated: with the source flag set and a known
duration of 120 seconds, the `isShort` of the code is `true` (the flag wins),
while the rule of the claim — duration known, so `duration <= 60` decides —
gives `false`. -/
theorem is_short_flag_precedence_cex :
    jsIsShort (some true) (some 120) = true ∧
      specIsShort (some true) (some 120) = false := by
  constructor <;> rfl

/-- C8 amended: `is_short` is true exactly when the source flag is set or
the duration is known and at most 60 seconds; when the duration is
missing and no flag is present it defaults to `false`. -/
theorem is_short_rule (flag : Option Bool) (duration : Option ℚ) :
    (jsIsShort flag duration = true ↔
      (flag = some true ∨ ∃ d, duration = some d ∧ d ≤ 60)) ∧
    (duration = none → jsIsShort flag duration = flag.getD false) := by
  constructor
  · cases flag with
    | none =>
      cases duration with
      | none => simp [jsIsShort]
      | some d => simp [jsIsShort]
    | some b =>
      cases b with
      | false =>
        cases duration with
        | none => simp [jsIsShort]
        | some d => simp [jsIsShort]
      | true => simp [jsIsShort]
  · intro h
    subst h
    cases flag with
    | none => rfl
    | some b => cases b <;> rfl

/-- Witness for the amended rule of C8 at a concrete input. -/
theorem is_short_rule_witness :
    (jsIsShort none (some 30) = true ↔
      ((none : Option Bool) = some true ∨
        ∃ d, (some (30 : ℚ)) = some d ∧ d ≤ 60)) ∧
      jsIsShort (some true) none = true :=
  ⟨(is_short_rule none (some 30)).1,
   by rw [(is_short_rule (some true) none).2 rfl]; rfl⟩

/-- JS `Math.round`: round half toward positive infinity. -/
def jsRound (x : ℚ) : ℤ := ⌊x + 1/2⌋

/-- The stored watch-session record of `recordWatchSession`
(src/unnamed/part_013, lines 40-52), restricted to the fields computed
by nontrivial logic. -/
structure WatchSessionRecord where
  videoId : String
  duration : ℚ
  watchedPercentage : ℤ
  isShort : Bool
  deriving Repr, DecidableEq

/-- Embedding of `recordWatchSession` (src/unnamed/part_013, lines 30-52):
`watchPercentage = Math.min(Math.round((watchDuration / videoData.duration)
* 100), 100)`, `isShort` from line 32, `duration` the watch duration. -/
def recordWatchSession (videoId : String) (flag : Option Bool)
    (videoDuration : ℚ) (watchDuration : ℚ) : WatchSessionRecord :=
  { videoId := videoId
  , duration := watchDuration
  , watchedPercentage := min (jsRound (watchDuration / videoDuration * 100)) 100
  , isShort := jsIsShort flag (some videoDuration) }

/-- C9 (percentage cap): for every call with a positive video duration, the
stored `watchedPercentage` is at most 100 — the `Math.min(..., 100)` cap
makes a watch duration exceeding the video length safe. -/
theorem watched_percentage_capped (videoId : String) (flag : Option Bool)
    (videoDuration watchDuration : ℚ) (h : 0 < videoDuration) :
    (recordWatchSession videoId flag videoDuration watchDuration).watchedPercentage
      ≤ 100 :=
  min_le_right _ _

/-- Witness for C9 at a concrete input: watching 250 seconds of a
100-second video stores 100 percent. -/
theorem watched_percentage_capped_witness :
    (recordWatchSession "v" none 100 250).watchedPercentage ≤ 100 :=
  watched_percentage_capped "v" none 100 250 (by norm_num)

/-- The client-visible fields of the watch-history zustand store
(src/unnamed/part_011, lines 20-35), generic over the analytics and
status payload types. -/
structure WatchHistoryClientState (α σ : Type) where
  status : Option σ
  analytics : Option α
  error : Option String
  uploadMessage : Option String
  lastUpdatedAt : Option String
  deriving Repr, DecidableEq

/-- Outcome of the delete request as observed by `deleteHistory`: either a
parsed response `{ success, message }`, or a thrown error (network or
JSON failure, or the `throw` on `success=false` is folded into
`response false message` below, which models the code path exactly). -/
inductive DeleteOutcome where
  | response (success : Bool) (message : Option String)
  | thrown (message : String)
  deriving Repr, DecidableEq

/-- JS `a || b` on an optional string: an absent or empty string is falsy
and yields the default. -/
def jsOrDefault (m : Option String) (d : String) : String :=
  match m with
  | some s => if s = "" then d else s
  | none => d

/-- Embedding of `deleteHistory` (src/unnamed/part_011, lines 138-151): on
entry `error` and `uploadMessage` are reset; a `success=true` response
clears `analytics`, `status` and `lastUpdatedAt` and stores the response
message; `success=false` throws `data.message || "Failed to delete watch
history"` into the catch, and a thrown request lands there too — the
catch only sets `error`. -/
def deleteHistory {α σ : Type} (s : WatchHistoryClientState α σ)
    (o : DeleteOutcome) : WatchHistoryClientState α σ :=
  let s1 : WatchHistoryClientState α σ :=
    { s with error := none, uploadMessage := none }
  match o with
  | .response true message =>
      { s1 with analytics := none, status := none, uploadMessage := message,
                lastUpdatedAt := none }
  | .response false message =>
      { s1 with error := some (jsOrDefault message "Failed to delete watch history") }
  | .thrown m => { s1 with error := some m }

/-- Counterexample to C10 as stated: on a thrown delete request, the code
does not leave everything but `error` unchanged — `uploadMessage` is
also reset to null at entry, so a previously displayed upload message
disappears. -/
theorem delete_history_only_error_cex :
    deleteHistory
        (⟨some 1, some 2, none, some "uploaded", some "t"⟩ :
          WatchHistoryClientState Nat Nat)
        (.thrown "boom") ≠
      { (⟨some 1, some 2, none, some "uploaded", some "t"⟩ :
          WatchHistoryClientState Nat Nat) with error := some "boom" } := by
  decide

/-- C10 amended: `deleteHistory` clears `analytics` and `status` exactly on
a `success=true` response (together with `lastUpdatedAt`, storing the
response message); on a `success=false` response or a thrown request,
`analytics`, `status` and `lastUpdatedAt` are left unchanged and only
`error` is set — with `uploadMessage` cleared, since both `error` and
`uploadMessage` are reset on entry.  The client-visible analytics state
is atomically cleared-or-unchanged. -/
theorem delete_history_atomic {α σ : Type} (s : WatchHistoryClientState α σ) :
    (∀ message, deleteHistory s (.response true message) =
        { s with analytics := none, status := none, error := none,
                 uploadMessage := message, lastUpdatedAt := none }) ∧
    (∀ message, deleteHistory s (.response false message) =
        { s with error := some (jsOrDefault message "Failed to delete watch history"),
                 uploadMessage := none }) ∧
    (∀ m, deleteHistory s (.thrown m) =
        { s with error := some m, uploadMessage := none }) := by
  refine ⟨?_, ?_, ?_⟩
  · intro message; rfl
  · intro message; rfl
  · intro m; rfl

/-- Witness for the amended transition of C10 at a concrete state. -/
theorem delete_history_atomic_witness :
    deleteHistory
        (⟨some 7, some 9, none, some "uploaded", some "t"⟩ :
          WatchHistoryClientState Nat Nat)
        (.thrown "network down") =
      { status := some 7, analytics := some 9, error := some "network down",
        uploadMessage := none, lastUpdatedAt := some "t" } :=
  (delete_history_atomic
    (⟨some 7, some 9, none, some "uploaded", some "t"⟩ :
      WatchHistoryClientState Nat Nat)).2.2 "network down"

end MirrorYourself
